import Mathlib

/-!
Shallow embedding of the secant-method root finder from
`src/lab-2/lab-2-hands-on/secant.ipynb` (the `secant` function), with proofs
checking the specification's claims about it.

Modelling choices:
* Real/float arithmetic is embedded over `ℚ` (exact arithmetic); the claims
  under study are about control flow and the algebraic form of the update,
  not about rounding.
* The Python `while True` loop is embedded as a fuel-indexed recursion
  `secantLoop`; `Outcome.outOfFuel` records the loop state (current pair,
  iteration counter, history) at the start of the first iteration the fuel
  could not cover.  The top-level `secant` runs the loop with fuel
  `max_iterations + 1`, which is proved sufficient (`c5_terminates`).
* Python raises `ZeroDivisionError` when a float division has zero
  denominator, and `AssertionError` when the initial `assert` fails; both are
  made explicit as `PyError` outcomes.
* The three `return` sites of the loop are distinguished by `Status`,
  mirroring the distinct console reports of the source (the "Found solution"
  print, the silent degenerate-bracket return, and the "maximum iterations"
  print).
* The second and third components of the results count the number of
  evaluations of `func` and the number of executed loop bodies
  ("iterations actually performed"); both follow Python's left-to-right
  evaluation order (the `d_x` line alone evaluates `func` three times).
* `report_history` in the source only selects whether the history dict is
  built and returned; it does not affect the estimate or the control flow,
  so the embedding always threads the history (the `report_history=True`
  behaviour).
-/

namespace SecantNB

/-- Which distinct console report / return site of the source terminated the
run: the stopping-rule return ("Found solution ..."), the degenerate
sign-test return (silent), or the iteration-bound return
("Terminate since reached the maximum iterations."). -/
inductive Status
  | converged
  | bracketLost
  | exhausted
  deriving DecidableEq

/-- Exceptions the Python code can raise: the failed `assert` on the initial
interval, and the runtime's division-by-zero error on the `d_x` line. -/
inductive PyError
  | assertionError
  | zeroDivisionError
  deriving DecidableEq

/-- The history dict of the source: three parallel append-only lists. -/
structure History where
  estimation : List ℚ
  x_error : List ℚ
  y_error : List ℚ
  deriving DecidableEq

/-- One iteration's three `append` calls on the history dict. -/
def pushHist (h : History) (c xe ye : ℚ) : History :=
  ⟨h.estimation.concat c, h.x_error.concat xe, h.y_error.concat ye⟩

/-- Result of running the loop: a returned estimate with its status and
history, a raised exception, or fuel exhaustion (recording the loop state at
the start of the uncovered iteration). -/
inductive Outcome
  | ok (c : ℚ) (status : Status) (history : History)
  | err (e : PyError)
  | outOfFuel (a_next b_next : ℚ) (num_iterations : ℕ) (history : History)
  deriving DecidableEq

/-- Whether the outcome is fuel exhaustion (never the case for the fuel
`secant` uses, see `c5_terminates`). -/
def Outcome.isOutOfFuel : Outcome → Bool
  | .outOfFuel _ _ _ _ => true
  | _ => false

/-- Whether the outcome is a return through the stopping rule. -/
def Outcome.isConvergedOk : Outcome → Bool
  | .ok _ .converged _ => true
  | _ => false

/-- The history carried by an outcome (`none` for a raised exception). -/
def Outcome.historyOf : Outcome → Option History
  | .ok _ _ h => some h
  | .err _ => none
  | .outOfFuel _ _ _ h => some h

/-- The estimate returned by an outcome (`none` unless the loop returned). -/
def Outcome.estimateOf : Outcome → Option ℚ
  | .ok c _ _ => some c
  | .err _ => none
  | .outOfFuel _ _ _ _ => none

/-- The `d_x` local of the loop body:
`d_x = - func(a_next) * (b_next - a_next) / (func(b_next) - func(a_next))`. -/
def step_dx (f : ℚ → ℚ) (a_next b_next : ℚ) : ℚ :=
  - f a_next * (b_next - a_next) / (f b_next - f a_next)

/-- The `c` local of the loop body: `c = a_next + d_x`. -/
def step_c (f : ℚ → ℚ) (a_next b_next : ℚ) : ℚ :=
  a_next + step_dx f a_next b_next

/-- The `x_error` local of the loop body: `x_error = abs(d_x)`. -/
def step_x_error (f : ℚ → ℚ) (a_next b_next : ℚ) : ℚ :=
  |step_dx f a_next b_next|

/-- The `y_error` local of the loop body: `y_error = abs(func(c))`. -/
def step_y_error (f : ℚ → ℚ) (a_next b_next : ℚ) : ℚ :=
  |f (step_c f a_next b_next)|

/-- The `while True` loop of `secant`, fuel-indexed.  Arguments after the
fuel: current `a_next`, `b_next`, `num_iterations`, the history, the number
of `func` evaluations so far, and the number of loop bodies executed so far.
The `d_x` line evaluates `func` three times (`func(a_next)` twice and
`func(b_next)` once); Python raises `ZeroDivisionError` there when
`func(b_next) - func(a_next)` is zero, which the embedding makes explicit.
`y_error` adds one evaluation; the interval-selection block adds
`value_of_func_c = func(c)` plus one evaluation per sign test executed. -/
def secantLoop (f : ℚ → ℚ) (tolerance : ℚ) (max_iterations : ℕ) :
    ℕ → ℚ → ℚ → ℕ → History → ℕ → ℕ → Outcome × ℕ × ℕ
  | 0, a_next, b_next, num_iterations, history, evals, steps =>
      (.outOfFuel a_next b_next num_iterations history, evals, steps)
  | fuel + 1, a_next, b_next, num_iterations, history, evals, steps =>
      if f b_next - f a_next = 0 then
        (.err .zeroDivisionError, evals + 3, steps + 1)
      else if step_x_error f a_next b_next < tolerance ∨
          step_y_error f a_next b_next < tolerance then
        (.ok (step_c f a_next b_next) .converged
          (pushHist history (step_c f a_next b_next)
            (step_x_error f a_next b_next) (step_y_error f a_next b_next)),
         evals + 4, steps + 1)
      else if num_iterations < max_iterations then
        if f a_next * f (step_c f a_next b_next) < 0 then
          secantLoop f tolerance max_iterations fuel
            a_next (step_c f a_next b_next) (num_iterations + 1)
            (pushHist history (step_c f a_next b_next)
              (step_x_error f a_next b_next) (step_y_error f a_next b_next))
            (evals + 6) (steps + 1)
        else if f (step_c f a_next b_next) * f b_next < 0 then
          secantLoop f tolerance max_iterations fuel
            (step_c f a_next b_next) b_next (num_iterations + 1)
            (pushHist history (step_c f a_next b_next)
              (step_x_error f a_next b_next) (step_y_error f a_next b_next))
            (evals + 7) (steps + 1)
        else
          (.ok (step_c f a_next b_next) .bracketLost
            (pushHist history (step_c f a_next b_next)
              (step_x_error f a_next b_next) (step_y_error f a_next b_next)),
           evals + 7, steps + 1)
      else
        (.ok (step_c f a_next b_next) .exhausted
          (pushHist history (step_c f a_next b_next)
            (step_x_error f a_next b_next) (step_y_error f a_next b_next)),
         evals + 4, steps + 1)

/-- The `secant` function of the notebook.  The `assert` evaluates `func(a)`
and `func(b)` (two evaluations) and aborts the call with an assertion error
when `func(a) * func(b) < 0` fails; otherwise the loop runs from the initial
pair with `num_iterations = 0` and an empty history.  Fuel
`max_iterations + 1` is sufficient for the loop to never run out
(`c5_terminates`). -/
def secant (f : ℚ → ℚ) (interval : ℚ × ℚ) (max_iterations : ℕ)
    (tolerance : ℚ) : Outcome × ℕ × ℕ :=
  if f interval.1 * f interval.2 < 0 then
    secantLoop f tolerance max_iterations (max_iterations + 1)
      interval.1 interval.2 0 ⟨[], [], []⟩ 2 0
  else
    (.err .assertionError, 2, 0)

/-- Written from the spec's words (§4.1 steps 1-3), for comparison with the
source-derived step functions: the new estimate
`c = a_next + dx` with `dx = -f(a_next)*(b_next-a_next)/(f(b_next)-f(a_next))`,
paired with `x_error = |dx|` and `y_error = |f(c)|`. -/
def specSecantStep (f : ℚ → ℚ) (a b : ℚ) : ℚ × ℚ × ℚ :=
  (a + (- f a * (b - a) / (f b - f a)),
   |(- f a * (b - a) / (f b - f a))|,
   |f (a + (- f a * (b - a) / (f b - f a)))|)

/-- Whether the last element of a list is a lower bound of the list
(vacuously true for the empty list). -/
def lastIsMin (l : List ℚ) : Bool :=
  match l.getLast? with
  | none => true
  | some y => l.all fun x => y ≤ x

/-- The example function defined in the notebook, `f(x) = x^2 - x - 1`. -/
def fGolden : ℚ → ℚ := fun x => x ^ 2 - x - 1

/-- C1: in every iteration of `solve`, the secant step is
`dx = -f(a_next) * (b_next - a_next) / (f(b_next) - f(a_next))` and the new
estimate is `c = a_next + dx`, with `x_error = |dx|` and `y_error = |f(c)|`.
Formally: the source's step locals agree with the spec's formulas
(`specSecantStep`), and one executed loop body (fuel `1` isolates a single
iteration; the body is the same at every fuel) always records exactly
`(c, x_error, y_error)` in the history and, when it returns an estimate,
returns exactly this `c`. -/
theorem c1_secant_step_formula (f : ℚ → ℚ) (tol : ℚ) (M : ℕ) (a b : ℚ)
    (n : ℕ) (h : History) (e s : ℕ) (hden : f b - f a ≠ 0) :
    specSecantStep f a b =
      (step_c f a b, step_x_error f a b, step_y_error f a b) ∧
    (secantLoop f tol M 1 a b n h e s).1.historyOf =
      some (pushHist h (step_c f a b) (step_x_error f a b)
        (step_y_error f a b)) ∧
    ((secantLoop f tol M 1 a b n h e s).1.estimateOf = none ∨
     (secantLoop f tol M 1 a b n h e s).1.estimateOf =
       some (step_c f a b)) := by
  refine ⟨rfl, ?_, ?_⟩ <;>
  · simp only [secantLoop]
    rw [if_neg hden]
    split_ifs <;>
      simp [Outcome.historyOf, Outcome.estimateOf, secantLoop]

/-- Closed instance of `c1_secant_step_formula` at `f(x) = x^2 - x - 1` on
the pair `(1, 2)`. -/
theorem c1_secant_step_formula_witness :
    (fGolden 2 - fGolden 1 ≠ 0) ∧
    (specSecantStep fGolden 1 2 =
      (step_c fGolden 1 2, step_x_error fGolden 1 2,
        step_y_error fGolden 1 2) ∧
    (secantLoop fGolden (1/1000) 5 1 1 2 0 ⟨[], [], []⟩ 2 0).1.historyOf =
      some (pushHist ⟨[], [], []⟩ (step_c fGolden 1 2)
        (step_x_error fGolden 1 2) (step_y_error fGolden 1 2)) ∧
    ((secantLoop fGolden (1/1000) 5 1 1 2 0 ⟨[], [], []⟩ 2 0).1.estimateOf =
        none ∨
     (secantLoop fGolden (1/1000) 5 1 1 2 0 ⟨[], [], []⟩ 2 0).1.estimateOf =
       some (step_c fGolden 1 2))) :=
  ⟨by norm_num [fGolden],
   c1_secant_step_formula fGolden (1/1000) 5 1 2 0 ⟨[], [], []⟩ 2 0
     (by norm_num [fGolden])⟩

/-- C2: an iteration of `solve` terminates through the stopping rule and
returns the current estimate `c` exactly when
`x_error < tolerance ∨ y_error < tolerance`; either criterion alone
suffices (the hypothesis is the disjunction), and an iteration continues
(fuel exhaustion of the single-iteration run) only when neither criterion
is met. -/
theorem c2_stopping_rule (f : ℚ → ℚ) (tol : ℚ) (M : ℕ) (a b : ℚ) (n : ℕ)
    (h : History) (e s : ℕ) (hden : f b - f a ≠ 0) :
    ((step_x_error f a b < tol ∨ step_y_error f a b < tol) →
      secantLoop f tol M 1 a b n h e s =
        (Outcome.ok (step_c f a b) Status.converged
          (pushHist h (step_c f a b) (step_x_error f a b)
            (step_y_error f a b)), e + 4, s + 1)) ∧
    ((secantLoop f tol M 1 a b n h e s).1.isConvergedOk = true ↔
      (step_x_error f a b < tol ∨ step_y_error f a b < tol)) ∧
    ((secantLoop f tol M 1 a b n h e s).1.isOutOfFuel = true →
      ¬ step_x_error f a b < tol ∧ ¬ step_y_error f a b < tol) := by
  refine ⟨?_, ?_, ?_⟩
  · intro hor
    simp only [secantLoop]
    rw [if_neg hden, if_pos hor]
  · simp only [secantLoop]
    rw [if_neg hden]
    split_ifs <;> simp_all [Outcome.isConvergedOk, secantLoop]
  · simp only [secantLoop]
    rw [if_neg hden]
    split_ifs <;> intros <;> simp_all [Outcome.isOutOfFuel, secantLoop]

/-- Closed instance of `c2_stopping_rule` at `f(x) = x^2 - x - 1` on the
pair `(1, 2)` with tolerance `1/2` (the first iteration converges through
`y_error = 1/4 < 1/2`). -/
theorem c2_stopping_rule_witness :
    (fGolden 2 - fGolden 1 ≠ 0) ∧
    (((step_x_error fGolden 1 2 < 1/2 ∨ step_y_error fGolden 1 2 < 1/2) →
      secantLoop fGolden (1/2) 5 1 1 2 0 ⟨[], [], []⟩ 2 0 =
        (Outcome.ok (step_c fGolden 1 2) Status.converged
          (pushHist ⟨[], [], []⟩ (step_c fGolden 1 2)
            (step_x_error fGolden 1 2) (step_y_error fGolden 1 2)),
         2 + 4, 0 + 1)) ∧
    ((secantLoop fGolden (1/2) 5 1 1 2 0 ⟨[], [], []⟩ 2 0).1.isConvergedOk =
        true ↔
      (step_x_error fGolden 1 2 < 1/2 ∨ step_y_error fGolden 1 2 < 1/2)) ∧
    ((secantLoop fGolden (1/2) 5 1 1 2 0 ⟨[], [], []⟩ 2 0).1.isOutOfFuel =
        true →
      ¬ step_x_error fGolden 1 2 < 1/2 ∧
      ¬ step_y_error fGolden 1 2 < 1/2)) :=
  ⟨by norm_num [fGolden],
   c2_stopping_rule fGolden (1/2) 5 1 2 0 ⟨[], [], []⟩ 2 0
     (by norm_num [fGolden])⟩

/-- C3: when `f(a) * f(b) ≥ 0` the call fails with the precondition error
(the source's failing `assert`, the spec's `PreconditionError`) before any
iteration runs (`steps = 0`), returns no partial result (the outcome is an
error carrying no estimate and no history), and performs exactly the two
precondition function evaluations (`evals = 2`). -/
theorem c3_precondition_error (f : ℚ → ℚ) (a b tol : ℚ) (M : ℕ)
    (hab : 0 ≤ f a * f b) :
    secant f (a, b) M tol = (Outcome.err PyError.assertionError, 2, 0) := by
  have hlt : ¬ f a * f b < 0 := not_lt.mpr hab
  simp [secant, hlt]

/-- Closed instance of `c3_precondition_error`: the spec's own example
`f(x) = x^2 - x - 1` on `[2, 3]` (`f(2) = 1 > 0`, `f(3) = 5 > 0`). -/
theorem c3_precondition_error_witness :
    (0 ≤ fGolden 2 * fGolden 3) ∧
    secant fGolden (2, 3) 5 (1/1000) =
      (Outcome.err PyError.assertionError, 2, 0) :=
  ⟨by norm_num [fGolden],
   c3_precondition_error fGolden 2 3 (1/1000) 5 (by norm_num [fGolden])⟩

/-- C7: when the iteration count has reached `max_iterations` and neither
error is below the tolerance, the iteration terminates and returns the
current estimate `c` without failing, tagged with the `exhausted` status
(the source's distinct "maximum iterations" report), which is distinct from
the successful-convergence status. -/
theorem c7_exhausted_returns_estimate (f : ℚ → ℚ) (tol : ℚ) (M fuel : ℕ)
    (a b : ℚ) (n : ℕ) (h : History) (e s : ℕ) (hden : f b - f a ≠ 0)
    (hx : ¬ step_x_error f a b < tol) (hy : ¬ step_y_error f a b < tol)
    (hn : ¬ n < M) :
    secantLoop f tol M (fuel + 1) a b n h e s =
      (Outcome.ok (step_c f a b) Status.exhausted
        (pushHist h (step_c f a b) (step_x_error f a b)
          (step_y_error f a b)), e + 4, s + 1) ∧
    Status.exhausted ≠ Status.converged := by
  refine ⟨?_, by decide⟩
  simp only [secantLoop]
  rw [if_neg hden, if_neg (not_or.mpr ⟨hx, hy⟩), if_neg hn]

/-- Closed instance of `c7_exhausted_returns_estimate`:
`f(x) = x^2 - x - 1` on `(1, 2)` with `max_iterations = 0` (the first
iteration already exceeds the bound; errors `1/2` and `1/4` are above the
tolerance `1/1000`). -/
theorem c7_exhausted_returns_estimate_witness :
    (fGolden 2 - fGolden 1 ≠ 0) ∧
    (¬ step_x_error fGolden 1 2 < 1/1000) ∧
    (¬ step_y_error fGolden 1 2 < 1/1000) ∧
    (¬ 0 < 0) ∧
    (secantLoop fGolden (1/1000) 0 (0 + 1) 1 2 0 ⟨[], [], []⟩ 2 0 =
      (Outcome.ok (step_c fGolden 1 2) Status.exhausted
        (pushHist ⟨[], [], []⟩ (step_c fGolden 1 2)
          (step_x_error fGolden 1 2) (step_y_error fGolden 1 2)),
       2 + 4, 0 + 1) ∧
    Status.exhausted ≠ Status.converged) :=
  ⟨by norm_num [fGolden],
   by norm_num [step_x_error, step_dx, fGolden, abs_eq_max_neg, max_def],
   by norm_num [step_y_error, step_c, step_dx, fGolden, abs_eq_max_neg,
     max_def],
   by decide,
   c7_exhausted_returns_estimate fGolden (1/1000) 0 0 1 2 0 ⟨[], [], []⟩ 2 0
     (by norm_num [fGolden])
     (by norm_num [step_x_error, step_dx, fGolden, abs_eq_max_neg, max_def])
     (by norm_num [step_y_error, step_c, step_dx, fGolden, abs_eq_max_neg,
       max_def])
     (by decide)⟩

/-- C8: when `f(b_next) = f(a_next)` during the step computation, the
iteration raises the runtime's `ZeroDivisionError` (Python float division by
a zero denominator raises rather than silently producing infinity or NaN);
the embedding makes that signal an explicit error outcome, with exactly the
three `func` evaluations of the `d_x` line performed and nothing recorded. -/
theorem c8_zero_denominator_signals (f : ℚ → ℚ) (tol : ℚ) (M fuel : ℕ)
    (a b : ℚ) (n : ℕ) (h : History) (e s : ℕ) (hden : f b - f a = 0) :
    secantLoop f tol M (fuel + 1) a b n h e s =
      (Outcome.err PyError.zeroDivisionError, e + 3, s + 1) := by
  simp only [secantLoop]
  rw [if_pos hden]

/-- Closed instance of `c8_zero_denominator_signals` at the constant
function `f(x) = 1`. -/
theorem c8_zero_denominator_signals_witness :
    ((fun _ : ℚ => (1 : ℚ)) 1 - (fun _ : ℚ => (1 : ℚ)) 0 = 0) ∧
    secantLoop (fun _ : ℚ => (1 : ℚ)) (1/1000) 5 (3 + 1) 0 1 0 ⟨[], [], []⟩
        0 0 =
      (Outcome.err PyError.zeroDivisionError, 0 + 3, 0 + 1) :=
  ⟨by norm_num,
   c8_zero_denominator_signals (fun _ : ℚ => (1 : ℚ)) (1/1000) 5 3 0 1 0
     ⟨[], [], []⟩ 0 0 (by norm_num)⟩

/-- Fuel exceeding `max_iterations - num_iterations` always suffices: the
loop result is never `outOfFuel`, and the total number of executed loop
bodies is bounded by the remaining iteration budget plus one. -/
theorem secantLoop_fuel_sufficient (f : ℚ → ℚ) (tol : ℚ) (M : ℕ) :
    ∀ fuel a b n (h : History) (e s : ℕ), M - n < fuel →
      (secantLoop f tol M fuel a b n h e s).1.isOutOfFuel = false ∧
      (secantLoop f tol M fuel a b n h e s).2.2 ≤ s + (M - n) + 1 := by
  intro fuel
  induction fuel with
  | zero =>
    intro a b n h e s hfuel
    exact absurd hfuel (by omega)
  | succ fuel ih =>
    intro a b n h e s hfuel
    simp only [secantLoop]
    split_ifs with h1 h2 h3 h4 h5
    · exact ⟨rfl, by show s + 1 ≤ s + (M - n) + 1; omega⟩
    · exact ⟨rfl, by show s + 1 ≤ s + (M - n) + 1; omega⟩
    · obtain ⟨k1, k2⟩ := ih a (step_c f a b) (n + 1)
        (pushHist h (step_c f a b) (step_x_error f a b) (step_y_error f a b))
        (e + 6) (s + 1) (by omega)
      exact ⟨k1, by omega⟩
    · obtain ⟨k1, k2⟩ := ih (step_c f a b) b (n + 1)
        (pushHist h (step_c f a b) (step_x_error f a b) (step_y_error f a b))
        (e + 7) (s + 1) (by omega)
      exact ⟨k1, by omega⟩
    · exact ⟨rfl, by show s + 1 ≤ s + (M - n) + 1; omega⟩
    · exact ⟨rfl, by show s + 1 ≤ s + (M - n) + 1; omega⟩

/-- Every executed loop body appends exactly one entry to each of the three
history lists, so the growth of each list equals the growth of the
body-execution counter. -/
theorem secantLoop_hist_lengths (f : ℚ → ℚ) (tol : ℚ) (M : ℕ) :
    ∀ fuel a b n (h0 : History) (e0 s0 : ℕ) c st (hh : History) (e s : ℕ),
      secantLoop f tol M fuel a b n h0 e0 s0 = (.ok c st hh, e, s) →
      hh.estimation.length + s0 = h0.estimation.length + s ∧
      hh.x_error.length + s0 = h0.x_error.length + s ∧
      hh.y_error.length + s0 = h0.y_error.length + s := by
  intro fuel
  induction fuel with
  | zero =>
    intro a b n h0 e0 s0 c st hh e s heq
    simp only [secantLoop, Prod.mk.injEq] at heq
    simp at heq
  | succ fuel ih =>
    intro a b n h0 e0 s0 c st hh e s heq
    simp only [secantLoop] at heq
    split_ifs at heq
    · simp [Prod.mk.injEq] at heq
    · simp only [Prod.mk.injEq, Outcome.ok.injEq] at heq
      obtain ⟨⟨h1, h2, h3⟩, h4, h5⟩ := heq
      subst h3; subst h5
      refine ⟨?_, ?_, ?_⟩ <;> (simp [pushHist, List.length_concat]; omega)
    · obtain ⟨t1, t2, t3⟩ := ih a (step_c f a b) (n + 1)
        (pushHist h0 (step_c f a b) (step_x_error f a b)
          (step_y_error f a b)) (e0 + 6) (s0 + 1) c st hh e s heq
      simp [pushHist, List.length_concat] at t1 t2 t3
      exact ⟨by omega, by omega, by omega⟩
    · obtain ⟨t1, t2, t3⟩ := ih (step_c f a b) b (n + 1)
        (pushHist h0 (step_c f a b) (step_x_error f a b)
          (step_y_error f a b)) (e0 + 7) (s0 + 1) c st hh e s heq
      simp [pushHist, List.length_concat] at t1 t2 t3
      exact ⟨by omega, by omega, by omega⟩
    · simp only [Prod.mk.injEq, Outcome.ok.injEq] at heq
      obtain ⟨⟨h1, h2, h3⟩, h4, h5⟩ := heq
      subst h3; subst h5
      refine ⟨?_, ?_, ?_⟩ <;> (simp [pushHist, List.length_concat]; omega)
    · simp only [Prod.mk.injEq, Outcome.ok.injEq] at heq
      obtain ⟨⟨h1, h2, h3⟩, h4, h5⟩ := heq
      subst h3; subst h5
      refine ⟨?_, ?_, ?_⟩ <;> (simp [pushHist, List.length_concat]; omega)

/-- A run that returns through the stopping rule ends with a history whose
final recorded entry is the returned estimate together with errors
satisfying the tolerance disjunction. -/
theorem secantLoop_converged_last (f : ℚ → ℚ) (tol : ℚ) (M : ℕ) :
    ∀ fuel a b n (h0 : History) (e0 s0 : ℕ) c (hh : History) (e s : ℕ),
      secantLoop f tol M fuel a b n h0 e0 s0 =
        (.ok c .converged hh, e, s) →
      ∃ xe ye, hh.x_error.getLast? = some xe ∧
        hh.y_error.getLast? = some ye ∧ (xe < tol ∨ ye < tol) ∧
        hh.estimation.getLast? = some c := by
  intro fuel
  induction fuel with
  | zero =>
    intro a b n h0 e0 s0 c hh e s heq
    simp [secantLoop] at heq
  | succ fuel ih =>
    intro a b n h0 e0 s0 c hh e s heq
    simp only [secantLoop] at heq
    split_ifs at heq with h1 h2
    · simp at heq
    · simp only [Prod.mk.injEq, Outcome.ok.injEq] at heq
      obtain ⟨⟨hc, -, hh'⟩, -, -⟩ := heq
      subst hh'
      refine ⟨step_x_error f a b, step_y_error f a b, ?_, ?_, h2, ?_⟩ <;>
        simp [pushHist, List.concat_eq_append, hc]
    · exact ih a (step_c f a b) (n + 1)
        (pushHist h0 (step_c f a b) (step_x_error f a b)
          (step_y_error f a b)) (e0 + 6) (s0 + 1) c hh e s heq
    · exact ih (step_c f a b) b (n + 1)
        (pushHist h0 (step_c f a b) (step_x_error f a b)
          (step_y_error f a b)) (e0 + 7) (s0 + 1) c hh e s heq
    · simp at heq
    · simp at heq

/-- The sign-change property `f(a_next) * f(b_next) < 0` is preserved by
every executed loop body: the state recorded at fuel exhaustion (the start
of any loop iteration) still satisfies it whenever the entry state did. -/
theorem secantLoop_bracket_preserved (f : ℚ → ℚ) (tol : ℚ) (M : ℕ) :
    ∀ fuel a b n (h : History) (e s : ℕ) a' b' n' (h' : History)
      (e' s' : ℕ), f a * f b < 0 →
      secantLoop f tol M fuel a b n h e s =
        (.outOfFuel a' b' n' h', e', s') →
      f a' * f b' < 0 := by
  intro fuel
  induction fuel with
  | zero =>
    intro a b n h e s a' b' n' h' e' s' hab heq
    simp only [secantLoop, Prod.mk.injEq, Outcome.outOfFuel.injEq] at heq
    obtain ⟨⟨rfl, rfl, -, -⟩, -, -⟩ := heq
    exact hab
  | succ fuel ih =>
    intro a b n h e s a' b' n' h' e' s' hab heq
    simp only [secantLoop] at heq
    split_ifs at heq
    · simp at heq
    · simp at heq
    · exact ih a (step_c f a b) (n + 1)
        (pushHist h (step_c f a b) (step_x_error f a b)
          (step_y_error f a b)) (e + 6) (s + 1) a' b' n' h' e' s'
        (by assumption) heq
    · exact ih (step_c f a b) b (n + 1)
        (pushHist h (step_c f a b) (step_x_error f a b)
          (step_y_error f a b)) (e + 7) (s + 1) a' b' n' h' e' s'
        (by assumption) heq
    · simp at heq
    · simp at heq

/-- C4: when the stopping rule is not met and the iteration count has not
reached `max_iterations`, the loop continues with the pair `(a_next, c)` if
`f(a_next) * f(c) < 0`, else with `(c, b_next)` if `f(c) * f(b_next) < 0`,
and otherwise (no sign change against either endpoint) terminates
immediately, returning `c` with the `bracketLost` status and without
raising. -/
theorem c4_next_bracket_pair (f : ℚ → ℚ) (tol : ℚ) (M fuel : ℕ) (a b : ℚ)
    (n : ℕ) (h : History) (e s : ℕ) (hden : f b - f a ≠ 0)
    (hx : ¬ step_x_error f a b < tol) (hy : ¬ step_y_error f a b < tol)
    (hn : n < M) :
    (f a * f (step_c f a b) < 0 →
      secantLoop f tol M (fuel + 1) a b n h e s =
        secantLoop f tol M fuel a (step_c f a b) (n + 1)
          (pushHist h (step_c f a b) (step_x_error f a b)
            (step_y_error f a b)) (e + 6) (s + 1)) ∧
    (¬ f a * f (step_c f a b) < 0 → f (step_c f a b) * f b < 0 →
      secantLoop f tol M (fuel + 1) a b n h e s =
        secantLoop f tol M fuel (step_c f a b) b (n + 1)
          (pushHist h (step_c f a b) (step_x_error f a b)
            (step_y_error f a b)) (e + 7) (s + 1)) ∧
    (¬ f a * f (step_c f a b) < 0 → ¬ f (step_c f a b) * f b < 0 →
      secantLoop f tol M (fuel + 1) a b n h e s =
        (Outcome.ok (step_c f a b) Status.bracketLost
          (pushHist h (step_c f a b) (step_x_error f a b)
            (step_y_error f a b)), e + 7, s + 1)) := by
  refine ⟨?_, ?_, ?_⟩ <;>
    (intros
     simp only [secantLoop]
     rw [if_neg hden, if_neg (not_or.mpr ⟨hx, hy⟩), if_pos hn]
     split_ifs <;> simp_all)

/-- Closed instance of `c4_next_bracket_pair` at `f(x) = x^2 - x - 1` on
`(1, 2)` (the second branch fires there: `f(3/2) * f(2) < 0`). -/
theorem c4_next_bracket_pair_witness :
    (fGolden 2 - fGolden 1 ≠ 0) ∧
    (¬ step_x_error fGolden 1 2 < 1/1000) ∧
    (¬ step_y_error fGolden 1 2 < 1/1000) ∧
    (0 < 1) ∧
    ((fGolden 1 * fGolden (step_c fGolden 1 2) < 0 →
      secantLoop fGolden (1/1000) 1 (0 + 1) 1 2 0 ⟨[], [], []⟩ 2 0 =
        secantLoop fGolden (1/1000) 1 0 1 (step_c fGolden 1 2) (0 + 1)
          (pushHist ⟨[], [], []⟩ (step_c fGolden 1 2)
            (step_x_error fGolden 1 2) (step_y_error fGolden 1 2))
          (2 + 6) (0 + 1)) ∧
    (¬ fGolden 1 * fGolden (step_c fGolden 1 2) < 0 →
      fGolden (step_c fGolden 1 2) * fGolden 2 < 0 →
      secantLoop fGolden (1/1000) 1 (0 + 1) 1 2 0 ⟨[], [], []⟩ 2 0 =
        secantLoop fGolden (1/1000) 1 0 (step_c fGolden 1 2) 2 (0 + 1)
          (pushHist ⟨[], [], []⟩ (step_c fGolden 1 2)
            (step_x_error fGolden 1 2) (step_y_error fGolden 1 2))
          (2 + 7) (0 + 1)) ∧
    (¬ fGolden 1 * fGolden (step_c fGolden 1 2) < 0 →
      ¬ fGolden (step_c fGolden 1 2) * fGolden 2 < 0 →
      secantLoop fGolden (1/1000) 1 (0 + 1) 1 2 0 ⟨[], [], []⟩ 2 0 =
        (Outcome.ok (step_c fGolden 1 2) Status.bracketLost
          (pushHist ⟨[], [], []⟩ (step_c fGolden 1 2)
            (step_x_error fGolden 1 2) (step_y_error fGolden 1 2)),
         2 + 7, 0 + 1))) :=
  ⟨by norm_num [fGolden],
   by norm_num [step_x_error, step_dx, fGolden, abs_eq_max_neg, max_def],
   by norm_num [step_y_error, step_c, step_dx, fGolden, abs_eq_max_neg,
     max_def],
   by decide,
   c4_next_bracket_pair fGolden (1/1000) 1 0 1 2 0 ⟨[], [], []⟩ 2 0
     (by norm_num [fGolden])
     (by norm_num [step_x_error, step_dx, fGolden, abs_eq_max_neg, max_def])
     (by norm_num [step_y_error, step_c, step_dx, fGolden, abs_eq_max_neg,
       max_def])
     (by decide)⟩

/-- C5: for every `f`, `a`, `b` with `f(a) * f(b) < 0`, every
`max_iterations` and every positive tolerance, the call terminates within
`max_iterations + 1` loop iterations: the fuel `max_iterations + 1` used by
`secant` is never exhausted, and the number of executed loop bodies is at
most `max_iterations + 1`. -/
theorem c5_terminates (f : ℚ → ℚ) (a b tol : ℚ) (M : ℕ)
    (hab : f a * f b < 0) (htol : 0 < tol) :
    (secant f (a, b) M tol).1.isOutOfFuel = false ∧
    (secant f (a, b) M tol).2.2 ≤ M + 1 := by
  obtain ⟨k1, k2⟩ := secantLoop_fuel_sufficient f tol M (M + 1) a b 0
    ⟨[], [], []⟩ 2 0 (by omega)
  have hsec : secant f (a, b) M tol =
      secantLoop f tol M (M + 1) a b 0 ⟨[], [], []⟩ 2 0 := by
    simp [secant, hab]
  rw [hsec]
  exact ⟨k1, by omega⟩

/-- Closed instance of `c5_terminates` at `f(x) = x^2 - x - 1` on `(1, 2)`
with `max_iterations = 2`. -/
theorem c5_terminates_witness :
    (fGolden 1 * fGolden 2 < 0) ∧ ((0 : ℚ) < 1/2) ∧
    ((secant fGolden (1, 2) 2 (1/2)).1.isOutOfFuel = false ∧
     (secant fGolden (1, 2) 2 (1/2)).2.2 ≤ 2 + 1) :=
  ⟨by norm_num [fGolden], by norm_num,
   c5_terminates fGolden 1 2 (1/2) 2 (by norm_num [fGolden]) (by norm_num)⟩

/-- C6: for every terminating call (this embedding threads the history of
`report_history=True`), the length of each of the three history fields
equals the number of loop iterations actually performed by that call (the
body-execution counter returned as the last component). -/
theorem c6_history_lengths (f : ℚ → ℚ) (ab : ℚ × ℚ) (M : ℕ) (tol : ℚ)
    (c : ℚ) (st : Status) (hh : History) (e s : ℕ)
    (hrun : secant f ab M tol = (.ok c st hh, e, s)) :
    hh.estimation.length = s ∧ hh.x_error.length = s ∧
    hh.y_error.length = s := by
  simp only [secant] at hrun
  split_ifs at hrun with hpre
  · have := secantLoop_hist_lengths f tol M (M + 1) ab.1 ab.2 0 ⟨[], [], []⟩
      2 0 c st hh e s hrun
    simpa using this
  · simp at hrun

/-- Closed instance of `c6_history_lengths`: a one-iteration exhausted run
of `f(x) = x^2 - x - 1` on `(1, 2)` with `max_iterations = 0`. -/
theorem c6_history_lengths_witness :
    (secant fGolden (1, 2) 0 (1/1000) =
      (Outcome.ok (3/2) Status.exhausted ⟨[3/2], [1/2], [1/4]⟩, 6, 1)) ∧
    ((⟨[3/2], [1/2], [1/4]⟩ : History).estimation.length = 1 ∧
     (⟨[3/2], [1/2], [1/4]⟩ : History).x_error.length = 1 ∧
     (⟨[3/2], [1/2], [1/4]⟩ : History).y_error.length = 1) :=
  ⟨by norm_num [secant, secantLoop, pushHist, step_c, step_dx, step_x_error,
     step_y_error, fGolden, abs_eq_max_neg, max_def],
   c6_history_lengths fGolden (1, 2) 0 (1/1000) (3/2) Status.exhausted
     ⟨[3/2], [1/2], [1/4]⟩ 6 1
     (by norm_num [secant, secantLoop, pushHist, step_c, step_dx,
       step_x_error, step_y_error, fGolden, abs_eq_max_neg, max_def])⟩

/-- A concrete terminating run used to refute C9:
`f(x) = -3x^3 - 3x^2 + 1` on `(-1, 1)` with `max_iterations = 1` and
tolerance `1/1000`. -/
def c9run : Outcome × ℕ × ℕ :=
  secant (fun x => -3 * x ^ 3 - 3 * x ^ 2 + 1) (-1, 1) 1 (1/1000)

set_option maxHeartbeats 1600000 in
/-- C9 is false on the code: in the terminating call `c9run` the recorded
`y_error` trace is `[5/9, 5/8]`, whose final entry `5/8` is strictly larger
than the earlier entry `5/9`, so the final entry's errors are not the
smallest values in their traces. -/
theorem c9_counterexample :
    c9run =
      (Outcome.ok (-(1/2) : ℚ) Status.exhausted
        ⟨[-2/3, -1/2], [1/3, 1/6], [5/9, 5/8]⟩, 13, 2) ∧
    (c9run.1.historyOf.map fun hh => lastIsMin hh.y_error) = some false := by
  have hrun : c9run =
      (Outcome.ok (-(1/2) : ℚ) Status.exhausted
        ⟨[-2/3, -1/2], [1/3, 1/6], [5/9, 5/8]⟩, 13, 2) := by
    norm_num [c9run, secant, secantLoop, pushHist, step_c, step_dx,
      step_x_error, step_y_error, abs_eq_max_neg, max_def]
  refine ⟨hrun, ?_⟩
  rw [hrun]
  norm_num [Outcome.historyOf, lastIsMin, List.getLast?, List.all]

/-- C9 (amended): for every terminating call whose status is `converged`
(termination through the stopping rule), the final history entry holds the
returned estimate and errors satisfying
`x_error < tolerance ∨ y_error < tolerance`; the final entry's errors need
not be the smallest values in their traces (see `c9_counterexample`). -/
theorem c9_amended_final_entry (f : ℚ → ℚ) (ab : ℚ × ℚ) (M : ℕ) (tol : ℚ)
    (c : ℚ) (hh : History) (e s : ℕ)
    (hrun : secant f ab M tol = (.ok c .converged hh, e, s)) :
    ∃ xe ye, hh.x_error.getLast? = some xe ∧
      hh.y_error.getLast? = some ye ∧ (xe < tol ∨ ye < tol) ∧
      hh.estimation.getLast? = some c := by
  simp only [secant] at hrun
  split_ifs at hrun with hpre
  · exact secantLoop_converged_last f tol M (M + 1) ab.1 ab.2 0 ⟨[], [], []⟩
      2 0 c hh e s hrun
  · simp at hrun

/-- Closed instance of `c9_amended_final_entry`: a converged run of
`f(x) = x^2 - x - 1` on `(1, 2)` with tolerance `1/2`. -/
theorem c9_amended_final_entry_witness :
    (secant fGolden (1, 2) 0 (1/2) =
      (Outcome.ok (3/2) Status.converged ⟨[3/2], [1/2], [1/4]⟩, 6, 1)) ∧
    (∃ xe ye,
      (⟨[3/2], [1/2], [1/4]⟩ : History).x_error.getLast? = some xe ∧
      (⟨[3/2], [1/2], [1/4]⟩ : History).y_error.getLast? = some ye ∧
      (xe < 1/2 ∨ ye < 1/2) ∧
      (⟨[3/2], [1/2], [1/4]⟩ : History).estimation.getLast? = some (3/2)) :=
  ⟨by norm_num [secant, secantLoop, pushHist, step_c, step_dx, step_x_error,
     step_y_error, fGolden, abs_eq_max_neg, max_def],
   c9_amended_final_entry fGolden (1, 2) 0 (1/2) (3/2) ⟨[3/2], [1/2], [1/4]⟩
     6 1
     (by norm_num [secant, secantLoop, pushHist, step_c, step_dx,
       step_x_error, step_y_error, fGolden, abs_eq_max_neg, max_def])⟩

/-- C10: if the pair entering the loop satisfies
`f(a_next) * f(b_next) < 0` (as the `assert` in `secant` guarantees for the
initial pair), then the pair current at the start of any later loop
iteration (the state recorded when any amount of fuel runs out) again
satisfies `f(a_next) * f(b_next) < 0`: this implementation preserves the
sign-change bracketing property on every iteration. -/
theorem c10_bracket_invariant (f : ℚ → ℚ) (tol : ℚ) (M fuel : ℕ) (a b : ℚ)
    (n : ℕ) (h : History) (e s : ℕ) (a' b' : ℚ) (n' : ℕ) (h' : History)
    (e' s' : ℕ) (hab : f a * f b < 0)
    (hrun : secantLoop f tol M fuel a b n h e s =
      (.outOfFuel a' b' n' h', e', s')) :
    f a' * f b' < 0 :=
  secantLoop_bracket_preserved f tol M fuel a b n h e s a' b' n' h' e' s'
    hab hrun

/-- Closed instance of `c10_bracket_invariant`: one executed iteration of
`f(x) = x^2 - x - 1` from `(1, 2)` reaches the pair `(3/2, 2)`, which still
satisfies the sign-change property. -/
theorem c10_bracket_invariant_witness :
    (fGolden 1 * fGolden 2 < 0) ∧
    (secantLoop fGolden (1/1000) 5 1 1 2 0 ⟨[], [], []⟩ 2 0 =
      (Outcome.outOfFuel (3/2) 2 1 ⟨[3/2], [1/2], [1/4]⟩, 9, 1)) ∧
    (fGolden (3/2) * fGolden 2 < 0) :=
  ⟨by norm_num [fGolden],
   by norm_num [secantLoop, pushHist, step_c, step_dx, step_x_error,
     step_y_error, fGolden, abs_eq_max_neg, max_def],
   c10_bracket_invariant fGolden (1/1000) 5 1 1 2 0 ⟨[], [], []⟩ 2 0
     (3/2) 2 1 ⟨[3/2], [1/2], [1/4]⟩ 9 1 (by norm_num [fGolden])
     (by norm_num [secantLoop, pushHist, step_c, step_dx, step_x_error,
       step_y_error, fGolden, abs_eq_max_neg, max_def])⟩

end SecantNB
